import Mathlib

/-!
Shallow embedding of the core of the rewrite-this extension
(src/rewrite-this.ts): the preset store (built-in presets, copy-on-write
shadow records, tombstone records), the toggle command, the rewrite
orchestrator's request construction and response extraction, and the
clipboard-based selection capture bridge.

Persisted state is passed explicitly: the "user_presets" key is a
`List Preset`, the "current_preset_id" key is an `Option String`.
-/

/-- Models JavaScript String.prototype.startsWith: is pre a prefix of s,
as character sequences? -/
def jsStartsWith (s pre : String) : Bool :=
  s.data.take pre.data.length == pre.data

/-- Drops the first n characters of a string.  Used to model the
id.replace call in getAllPresets: every id reaching that call starts with
the marker text, and a JavaScript replace whose pattern is a plain string
replaces only its first occurrence, here the leading marker. -/
def dropChars (s : String) (n : Nat) : String :=
  ⟨s.data.drop n⟩

/-- A preset record as persisted and displayed (interface Preset). -/
structure Preset where
  id : String
  name : String
  prompt : String
  deriving DecidableEq, Repr

/-- The four built-in presets (DEFAULT_PRESETS in the source). -/
def DEFAULT_PRESETS : List Preset :=
  [ { id := "conversational",
      name := "Conversational & Human",
      prompt := "Rewrite this with correct spelling and grammar. Aim to have a conversational and human tone of voice." },
    { id := "formal",
      name := "Formal & Professional",
      prompt := "Rewrite this with correct spelling and grammar. Use a formal, professional tone suitable for business or academic contexts." },
    { id := "concise",
      name := "Concise & Clear",
      prompt := "Rewrite this to be more concise and clear. Remove unnecessary words and simplify complex sentences while maintaining the original meaning." },
    { id := "grammar",
      name := "Fix Grammar Only",
      prompt := "Fix only the spelling and grammar in this text. Don't change the style, tone, or word choice unless necessary for grammatical correctness." } ]

/-- The deletion markers of getAllPresets: ids of tombstone records with
their leading "deleted_" removed. -/
def deletionMarkers (userPresets : List Preset) : List String :=
  (userPresets.filter (fun p => jsStartsWith p.id "deleted_")).map
    (fun p => dropChars p.id ("deleted_".data.length))

/-- The shadow copies of getAllPresets: records whose id starts with
"shadow_". -/
def shadowCopies (userPresets : List Preset) : List Preset :=
  userPresets.filter (fun p => jsStartsWith p.id "shadow_")

/-- The regular user presets of getAllPresets: records that are neither
tombstones nor shadow copies. -/
def regularUserPresets (userPresets : List Preset) : List Preset :=
  userPresets.filter
    (fun p => !(jsStartsWith p.id "deleted_") && !(jsStartsWith p.id "shadow_"))

/-- The built-in presets that have not been tombstoned. -/
def activeDefaultPresets (userPresets : List Preset) : List Preset :=
  DEFAULT_PRESETS.filter (fun p => !((deletionMarkers userPresets).contains p.id))

/-- Applies a matching shadow copy to a built-in preset: the shadow's
name and prompt are displayed under the built-in's original id. -/
def applyShadow (shadows : List Preset) (defaultPreset : Preset) : Preset :=
  match shadows.find? (fun p => p.id == "shadow_" ++ defaultPreset.id) with
  | some shadow =>
    { id := defaultPreset.id, name := shadow.name, prompt := shadow.prompt }
  | none => defaultPreset

/-- Resolves the visible preset list from the persisted user-preset
collection (getAllPresets in the source): tombstoned built-ins are
filtered out, shadow records override a built-in preset's name and prompt
while keeping its id, and regular user presets follow the built-ins. -/
def getAllPresets (userPresets : List Preset) : List Preset :=
  (activeDefaultPresets userPresets).map (applyShadow (shadowCopies userPresets)) ++
    regularUserPresets userPresets

/-- listPresets in the source just returns getAllPresets. -/
def listPresets (userPresets : List Preset) : List Preset :=
  getAllPresets userPresets

/-- The persisted store: the "user_presets" collection and the
"current_preset_id" selection pointer. -/
structure Store where
  userPresets : List Preset
  currentPresetId : Option String
  deriving DecidableEq, Repr

/-- Used to totalize the JavaScript indexing allPresets[0] /
allPresets[nextIndex], which in the source is always in bounds. -/
def dummyPreset : Preset :=
  { id := "", name := "", prompt := "" }

/-- deletePreset in the source.  A built-in id gets a tombstone record
appended; a user preset id is removed from the collection; an unknown id
is reported Not-Found (a toast) and leaves the store unchanged.  In
either mutating branch, if the deleted id was the current selection the
pointer is re-read from the freshly resolved list. -/
def deletePreset (presetId : String) (s : Store) : Store :=
  if DEFAULT_PRESETS.any (fun p => p.id == presetId) then
    let userPresets :=
      s.userPresets ++ [{ id := "deleted_" ++ presetId, name := "DELETED", prompt := "DELETED" }]
    let currentPresetId :=
      if s.currentPresetId == some presetId then
        let allPresets := getAllPresets userPresets
        if allPresets.length > 0 then some (allPresets.getD 0 dummyPreset).id else none
      else s.currentPresetId
    { userPresets := userPresets, currentPresetId := currentPresetId }
  else
    match s.userPresets.find? (fun p => p.id == presetId) with
    | none => s
    | some _ =>
      let userPresets := s.userPresets.filter (fun p => p.id != presetId)
      let currentPresetId :=
        if s.currentPresetId == some presetId then
          let allPresets := getAllPresets userPresets
          if allPresets.length > 0 then some (allPresets.getD 0 dummyPreset).id else none
        else s.currentPresetId
      { userPresets := userPresets, currentPresetId := currentPresetId }

/-- editPreset in the source, acting on the persisted user-preset
collection (the pointer is untouched).  Returns none for the Not-Found
branch (the toast), otherwise the updated collection: a built-in id gets
its shadow record created or updated, a user preset is rewritten in
place. -/
def editPreset (presetId name prompt : String) (userPresets : List Preset) :
    Option (List Preset) :=
  let allPresets := getAllPresets userPresets
  match allPresets.find? (fun p => p.id == presetId) with
  | none => none
  | some _ =>
    if DEFAULT_PRESETS.any (fun p => p.id == presetId) then
      match userPresets.findIdx? (fun p => p.id == "shadow_" ++ presetId) with
      | some shadowIndex =>
        some (userPresets.set shadowIndex
          { id := "shadow_" ++ presetId, name := name, prompt := prompt })
      | none =>
        some (userPresets ++ [{ id := "shadow_" ++ presetId, name := name, prompt := prompt }])
    else
      some (userPresets.map (fun p =>
        if p.id == presetId then { id := p.id, name := name, prompt := prompt } else p))

/-- togglePreset in the source.  Returns none when the resolved list is
empty (a failure toast, no state change); otherwise the updated store and
the newly selected preset (shown in the HUD).  The stored pointer is read
with the JavaScript or-default: an unset or empty-string pointer falls
back to the first resolved preset's id.  A pointer absent from the list
makes findIndex return -1, so the next index is (-1 + 1) % length = 0. -/
def togglePreset (s : Store) : Option (Store × Preset) :=
  let allPresets := getAllPresets s.userPresets
  match allPresets with
  | [] => none
  | first :: _ =>
    let currentPresetId :=
      match s.currentPresetId with
      | none => first.id
      | some c => if c == "" then first.id else c
    let nextIndex :=
      match allPresets.findIdx? (fun preset => preset.id == currentPresetId) with
      | some currentIndex => (currentIndex + 1) % allPresets.length
      | none => 0
    let nextPreset := allPresets.getD nextIndex dummyPreset
    some ({ userPresets := s.userPresets, currentPresetId := some nextPreset.id }, nextPreset)

/-- One chat message of the outbound request body. -/
structure ChatMessage where
  role : String
  content : String
  deriving DecidableEq, Repr

/-- The JSON body sent to the rewrite endpoint. -/
structure RequestBody where
  model : String
  max_tokens : Nat
  system : String
  messages : List ChatMessage
  deriving DecidableEq, Repr

/-- The system message built by the orchestrator (command in the
source): base role text, the optional em-dash avoidance clause, and the
closing only-the-rewritten-text directive. -/
def mkSystemMessage (avoidEmDashes : Bool) : String :=
  let systemMessage :=
    "You are a helpful text rewriting assistant. Your job is to take the provided text and rewrite it as instructed while preserving the original line breaks, paragraph structure, emojis, and formatting"
  let systemMessage :=
    if avoidEmDashes then
      systemMessage ++
        ". Do not use em dashes (—) in your rewrite. Use other punctuation like commas, parentheses, or colons instead"
    else systemMessage
  systemMessage ++ ". You should return ONLY the rewritten text, with no additional commentary."

/-- The user message content: the template literal concatenating the
active preset's prompt and the captured text. -/
def mkUserContent (promptToUse selectedText : String) : String :=
  promptToUse ++ " Here's the text to rewrite:\n\n" ++ selectedText

/-- The outbound request body the orchestrator constructs. -/
def buildRequestBody (selectedModel : String) (avoidEmDashes : Bool)
    (promptToUse selectedText : String) : RequestBody :=
  { model := selectedModel,
    max_tokens := 8192,
    system := mkSystemMessage avoidEmDashes,
    messages := [{ role := "user", content := mkUserContent promptToUse selectedText }] }

/-- One content block of the upstream response (ClaudeContentBlock). -/
structure ClaudeContentBlock where
  type : String
  text : String
  deriving DecidableEq, Repr

/-- The rewritten text the orchestrator uses after a 2xx response: the
source initializes it to the diagnostic placeholder and overwrites it
only when data.content?.[0]?.type === "text".  A missing content array is
modelled as none. -/
def extractRewrittenText (content : Option (List ClaudeContentBlock)) : String :=
  match content with
  | some (first :: _) =>
    if first.type == "text" then first.text else "No text returned from Claude"
  | _ => "No text returned from Claude"

/-- Environment for one run of the capture bridge: the clipboard contents
at entry, the text a copy keystroke would place on the clipboard, and
which of the four effectful steps throws an automation error. -/
structure CaptureEnv where
  clipboard : String
  selection : String
  readFails : Bool
  copyFails : Bool
  readBackFails : Bool
  restoreFails : Bool
  deriving DecidableEq, Repr

/-- getSelectedText in the source.  First component: the returned value
(none models the null returned from the catch block).  Second component:
the clipboard contents when the function returns.  The try block
snapshots the clipboard, issues the copy keystroke, waits, reads the new
clipboard, restores the snapshot and returns the captured text; any
throwing step jumps to the catch block, which only logs and returns null,
leaving the clipboard however the completed steps left it. -/
def getSelectedText (env : CaptureEnv) : Option String × String :=
  if env.readFails then (none, env.clipboard)
  else
    let originalClipboard := env.clipboard
    if env.copyFails then (none, env.clipboard)
    else
      let afterCopy := env.selection
      if env.readBackFails then (none, afterCopy)
      else
        let newClipboard := afterCopy
        if env.restoreFails then (none, afterCopy)
        else (some newClipboard, originalClipboard)

/-! ### Helper lemmas about the string primitives -/

theorem jsStartsWith_append (p t : String) : jsStartsWith (p ++ t) p = true := by
  simp [jsStartsWith, List.take_left']

theorem dropChars_append (p t : String) : dropChars (p ++ t) p.data.length = t := by
  apply String.ext
  simp [dropChars, List.drop_left']

theorem eq_append_of_jsStartsWith {s p : String} (h : jsStartsWith s p = true) :
    s = p ++ dropChars s p.data.length := by
  apply String.ext
  simp only [jsStartsWith, beq_iff_eq] at h
  show s.data = p.data ++ s.data.drop p.data.length
  calc s.data = s.data.take p.data.length ++ s.data.drop p.data.length :=
        (List.take_append_drop _ _).symm
    _ = p.data ++ s.data.drop p.data.length := by rw [h]

theorem tombstone_id_eq {s X : String} (h1 : jsStartsWith s "deleted_" = true)
    (h2 : dropChars s ("deleted_".data.length) = X) : s = "deleted_" ++ X := by
  rw [eq_append_of_jsStartsWith h1, h2]

theorem deleted_not_shadow (X : String) :
    jsStartsWith ("deleted_" ++ X) "shadow_" = false := by
  have hd : ("deleted_" ++ X).data = 'd' :: ("eleted_".data ++ X.data) := rfl
  simp only [jsStartsWith, hd]
  rfl

/-! ### C7: outbound request construction -/

set_option maxRecDepth 8192 in
/-- C7: with captured text "hello   world", active preset prompt
"Fix grammar" and em-dash avoidance enabled, the outbound request body's
system field contains the em-dash-avoidance clause, and its first
message's content starts with the preset prompt, the rewrite header, a
blank line and the captured text. -/
theorem buildRequestBody_scenario4 :
    (∃ a b,
      (buildRequestBody "claude-3-5-sonnet-20241022" true "Fix grammar" "hello   world").system =
        a ++ "Do not use em dashes (—) in your rewrite. Use other punctuation like commas, parentheses, or colons instead" ++ b) ∧
    ((buildRequestBody "claude-3-5-sonnet-20241022" true "Fix grammar" "hello   world").messages.map
        (fun m => m.content)) =
      ["Fix grammar Here's the text to rewrite:\n\nhello   world"] ∧
    jsStartsWith (mkUserContent "Fix grammar" "hello   world")
      "Fix grammar Here's the text to rewrite:\n\nhello   world" = true := by
  refine ⟨⟨"You are a helpful text rewriting assistant. Your job is to take the provided text and rewrite it as instructed while preserving the original line breaks, paragraph structure, emojis, and formatting. ",
    ". You should return ONLY the rewritten text, with no additional commentary.", ?_⟩, ?_, ?_⟩
  · decide
  · decide
  · decide

/-! ### C8: response extraction -/

/-- C8 counterexample: a 2xx response whose first content block is not
text-typed but whose second block is.  The claim says the rewritten
output is the text of the first block whose type is "text" ("hi"); the
code only inspects index 0 and substitutes the placeholder instead. -/
theorem extractRewrittenText_first_text_block_cex :
    extractRewrittenText (some [{ type := "tool_use", text := "ignored" },
        { type := "text", text := "hi" }]) = "No text returned from Claude" ∧
    ([({ type := "tool_use", text := "ignored" } : ClaudeContentBlock),
        { type := "text", text := "hi" }].find? (fun b => b.type == "text")) =
      some { type := "text", text := "hi" } ∧
    "No text returned from Claude" ≠ "hi" := by
  refine ⟨by decide, by decide, by decide⟩

/-- C8 amended: on a 2xx response the code inspects only the first
content block: if it exists and is text-typed its text is the rewritten
output; in every other case (first block of another type, empty content
array, or no content array at all) the diagnostic placeholder is
substituted, so the commit step is always reached with a defined
string. -/
theorem extractRewrittenText_spec :
    (∀ (first : ClaudeContentBlock) (rest : List ClaudeContentBlock),
      first.type = "text" → extractRewrittenText (some (first :: rest)) = first.text) ∧
    (∀ (first : ClaudeContentBlock) (rest : List ClaudeContentBlock),
      first.type ≠ "text" →
        extractRewrittenText (some (first :: rest)) = "No text returned from Claude") ∧
    extractRewrittenText (some []) = "No text returned from Claude" ∧
    extractRewrittenText none = "No text returned from Claude" := by
  refine ⟨?_, ?_, rfl, rfl⟩
  · intro first rest h
    simp [extractRewrittenText, h]
  · intro first rest h
    simp [extractRewrittenText, h]

/-- Witness for the amended C8 theorem at concrete inputs. -/
theorem extractRewrittenText_spec_witness :
    (({ type := "text", text := "hi" } : ClaudeContentBlock).type = "text" ∧
      extractRewrittenText (some [{ type := "text", text := "hi" }]) = "hi") ∧
    (({ type := "tool_use", text := "x" } : ClaudeContentBlock).type ≠ "text" ∧
      extractRewrittenText (some [{ type := "tool_use", text := "x" }]) =
        "No text returned from Claude") := by
  refine ⟨⟨rfl, ?_⟩, ⟨by decide, ?_⟩⟩
  · exact extractRewrittenText_spec.1 { type := "text", text := "hi" } [] rfl
  · exact extractRewrittenText_spec.2.1 { type := "tool_use", text := "x" } [] (by decide)

/-! ### C9: capture-path clipboard preservation -/

/-- C9: a capture run in which the copy keystroke succeeds but the
subsequent clipboard read throws.  The catch block returns null without
restoring the snapshot, so the function returns absent with the clipboard
left holding the selection instead of the original contents: the original
clipboard contents are lost on the capture path. -/
theorem getSelectedText_error_path_loses_clipboard :
    getSelectedText ⟨"orig", "sel", false, false, true, false⟩ = (none, "sel") ∧
    ("sel" : String) ≠ "orig" := by
  refine ⟨rfl, by decide⟩

/-- On the no-error run the capture bridge does restore the snapshot:
the divergence is confined to the error paths. -/
theorem getSelectedText_success_restores (env : CaptureEnv)
    (h : env.readFails = false ∧ env.copyFails = false ∧ env.readBackFails = false ∧
      env.restoreFails = false) :
    getSelectedText env = (some env.selection, env.clipboard) := by
  obtain ⟨h1, h2, h3, h4⟩ := h
  simp [getSelectedText, h1, h2, h3, h4]

/-- Witness for getSelectedText_success_restores at a concrete input. -/
theorem getSelectedText_success_restores_witness :
    getSelectedText ⟨"orig", "sel", false, false, false, false⟩ = (some "sel", "orig") :=
  getSelectedText_success_restores _ ⟨rfl, rfl, rfl, rfl⟩

/-! ### C2: tombstone suppression -/

/-- C2 counterexample: a persisted collection holding both a regular
record whose id equals the built-in id "conversational" and a tombstone
for that built-in.  The tombstone only suppresses the built-in entry;
the same-id user record is still returned, so an entry with id
"conversational" appears despite the tombstone. -/
theorem tombstone_suppression_cex :
    (([{ id := "conversational", name := "My", prompt := "P" },
        { id := "deleted_conversational", name := "DELETED", prompt := "DELETED" }] :
        List Preset).any (fun q => q.id == "deleted_" ++ "conversational") = true) ∧
    (listPresets [{ id := "conversational", name := "My", prompt := "P" },
        { id := "deleted_conversational", name := "DELETED", prompt := "DELETED" }]).any
      (fun e => e.id == "conversational") = true := by
  refine ⟨by decide, by decide⟩

/-! ### C3 counterexample -/

/-- C3 counterexample: "formal" is a built-in id, but once a tombstone
for it is persisted, editPreset("formal", ...) takes the Not-Found branch
instead of creating or updating the shadow record. -/
theorem editPreset_tombstoned_builtin_cex :
    (DEFAULT_PRESETS.any (fun p => p.id == "formal") = true) ∧
    editPreset "formal" "Formal v2" "New prompt"
      [{ id := "deleted_formal", name := "DELETED", prompt := "DELETED" }] = none := by
  refine ⟨by decide, by decide⟩

/-! ### C6 counterexample -/

/-- C6 counterexample: with an empty user collection the resolved list is
the four built-ins, whose second entry is "formal".  With a stale pointer
("zzz" is absent from the list) the toggle selects the FIRST entry
"conversational": findIndex returns -1 and (-1 + 1) % 4 = 0, so the
current position is not treated as the first entry (which would select
the second). -/
theorem togglePreset_stale_pointer_cex :
    (togglePreset { userPresets := [], currentPresetId := some "zzz" }).map
        (fun r => r.2.id) = some "conversational" ∧
    ((listPresets []).getD 1 dummyPreset).id = "formal" ∧
    ("conversational" : String) ≠ "formal" := by
  refine ⟨by decide, by decide, by decide⟩

/-! ### Resolution lemmas for getAllPresets -/

theorem applyShadow_id (sh : List Preset) (d : Preset) : (applyShadow sh d).id = d.id := by
  rcases h : sh.find? (fun p => p.id == "shadow_" ++ d.id) with _ | s <;>
    simp [applyShadow, h]

/-- A deletion marker X is recorded exactly when the collection holds a
record with id "deleted_" ++ X. -/
theorem contains_deletionMarkers {ups : List Preset} {X : String} :
    (deletionMarkers ups).contains X = true ↔ ∃ q ∈ ups, q.id = "deleted_" ++ X := by
  constructor
  · intro h
    have hx : X ∈ deletionMarkers ups := List.elem_iff.mp h
    simp only [deletionMarkers, List.mem_map, List.mem_filter] at hx
    obtain ⟨q, ⟨hq, hpre⟩, hdrop⟩ := hx
    exact ⟨q, hq, tombstone_id_eq hpre hdrop⟩
  · rintro ⟨q, hq, hid⟩
    have hx : X ∈ deletionMarkers ups := by
      simp only [deletionMarkers, List.mem_map, List.mem_filter]
      exact ⟨q, ⟨hq, by rw [hid]; exact jsStartsWith_append _ _⟩,
        by rw [hid]; exact dropChars_append _ _⟩
    exact List.elem_iff.mpr hx

/-- Splitting a resolved-list lookup into its built-in part and its
regular-user part. -/
theorem find?_getAllPresets (ups : List Preset) (X : String) :
    (getAllPresets ups).find? (fun p => p.id == X) =
      (((activeDefaultPresets ups).find? (fun d => d.id == X)).map
          (applyShadow (shadowCopies ups))).or
        ((regularUserPresets ups).find? (fun p => p.id == X)) := by
  simp only [getAllPresets, List.find?_append, List.find?_map]
  have hp : ((fun p : Preset => p.id == X) ∘ applyShadow (shadowCopies ups)) =
      (fun d : Preset => d.id == X) := by
    funext d
    simp [applyShadow_id]
  rw [hp]

/-- A shadow record is found among the shadow copies exactly as it is
found in the whole collection. -/
theorem find?_shadowCopies (ups : List Preset) (X : String) :
    (shadowCopies ups).find? (fun p => p.id == "shadow_" ++ X) =
      ups.find? (fun p => p.id == "shadow_" ++ X) := by
  simp only [shadowCopies, List.find?_filter]
  have hp : (fun a : Preset =>
        decide (jsStartsWith a.id "shadow_" = true ∧ (a.id == "shadow_" ++ X) = true)) =
      (fun q : Preset => q.id == "shadow_" ++ X) := by
    funext q
    rcases h : q.id == "shadow_" ++ X with _ | _
    · simp [h]
    · have : q.id = "shadow_" ++ X := by simpa using h
      simp [this, jsStartsWith_append]
  rw [hp]


/-- When X carries no deletion marker, looking X up among the resolved
built-ins is the same as looking it up among all built-ins: the tombstone
filter can only matter for the entry whose id is X itself. -/
theorem find?_activeDefaults_of_not_tomb {ups : List Preset} {X : String}
    (hM : (deletionMarkers ups).contains X = false) :
    (activeDefaultPresets ups).find? (fun p => p.id == X) =
      DEFAULT_PRESETS.find? (fun p => p.id == X) := by
  rw [activeDefaultPresets, List.find?_filter]
  have hp : (fun a : Preset =>
        decide ((!(deletionMarkers ups).contains a.id) = true ∧ (a.id == X) = true)) =
      (fun a : Preset => a.id == X) := by
    funext a
    rcases h : a.id == X with _ | _
    · simp [h]
    · have ha : a.id = X := by simpa using h
      rw [ha, hM]
      simp
  rw [hp]

/-- A built-in id is found among the built-ins. -/
theorem find?_DEFAULT_PRESETS {X : String}
    (hB : X ∈ DEFAULT_PRESETS.map (fun p => p.id)) :
    ∃ d, DEFAULT_PRESETS.find? (fun p => p.id == X) = some d ∧ d.id = X := by
  have hB' : X = "conversational" ∨ X = "formal" ∨ X = "concise" ∨ X = "grammar" := by
    simpa [DEFAULT_PRESETS] using hB
  rcases hB' with h | h | h | h <;> subst h
  · exact ⟨DEFAULT_PRESETS.getD 0 dummyPreset, by decide, by decide⟩
  · exact ⟨DEFAULT_PRESETS.getD 1 dummyPreset, by decide, by decide⟩
  · exact ⟨DEFAULT_PRESETS.getD 2 dummyPreset, by decide, by decide⟩
  · exact ⟨DEFAULT_PRESETS.getD 3 dummyPreset, by decide, by decide⟩

/-- A tombstoned built-in id is never found among the resolved built-in
entries. -/
theorem find?_activeDefaults_none {ups : List Preset} {X : String}
    (hM : (deletionMarkers ups).contains X = true) :
    (activeDefaultPresets ups).find? (fun p => p.id == X) = none := by
  rw [activeDefaultPresets, List.find?_filter, List.find?_eq_none]
  intro x _
  intro h
  obtain ⟨h1, h2⟩ := of_decide_eq_true h
  have hx : x.id = X := by simpa using h2
  rw [hx, hM] at h1
  simp at h1

/-! ### C1: shadow precedence -/

/-- C1: if the persisted collection holds a shadow record for built-in X
(sh being the first such record) and no tombstone for X, then the entry
for X in the resolved list keeps id X while taking name and prompt from
the shadow record. -/
theorem getAllPresets_shadow_precedence (ups : List Preset) (X : String) (sh : Preset)
    (hB : X ∈ DEFAULT_PRESETS.map (fun p => p.id))
    (hS : ups.find? (fun p => p.id == "shadow_" ++ X) = some sh)
    (hT : ∀ q ∈ ups, q.id ≠ "deleted_" ++ X) :
    (listPresets ups).find? (fun p => p.id == X) =
      some { id := X, name := sh.name, prompt := sh.prompt } := by
  have hM : (deletionMarkers ups).contains X = false := by
    rcases h : (deletionMarkers ups).contains X with _ | _
    · rfl
    · obtain ⟨q, hq, hid⟩ := contains_deletionMarkers.mp h
      exact absurd hid (hT q hq)
  have hSh : (shadowCopies ups).find? (fun p => p.id == "shadow_" ++ X) = some sh := by
    rw [find?_shadowCopies]; exact hS
  obtain ⟨d, hd, hdid⟩ := find?_DEFAULT_PRESETS hB
  rw [listPresets, find?_getAllPresets, find?_activeDefaults_of_not_tomb hM, hd]
  simp [Option.or, applyShadow, hdid, hSh]

/-- Witness for C1: a collection holding only a shadow record for
"formal" resolves "formal" to the shadow's name and prompt. -/
theorem getAllPresets_shadow_precedence_witness :
    ("formal" ∈ DEFAULT_PRESETS.map (fun p => p.id)) ∧
    ([({ id := "shadow_formal", name := "Formal v2", prompt := "New prompt" } : Preset)].find?
        (fun p => p.id == "shadow_" ++ "formal") =
      some { id := "shadow_formal", name := "Formal v2", prompt := "New prompt" }) ∧
    (listPresets [{ id := "shadow_formal", name := "Formal v2", prompt := "New prompt" }]).find?
        (fun p => p.id == "formal") =
      some { id := "formal", name := "Formal v2", prompt := "New prompt" } := by
  refine ⟨by decide, by decide, ?_⟩
  exact getAllPresets_shadow_precedence
    [{ id := "shadow_formal", name := "Formal v2", prompt := "New prompt" }] "formal"
    { id := "shadow_formal", name := "Formal v2", prompt := "New prompt" }
    (by decide) (by decide) (by decide)

/-! ### C2: tombstone suppression (amended) -/

/-- C2 amended: with a tombstone for built-in X persisted, no entry with
id X appears in the resolved list, PROVIDED no record of the collection
itself carries id X: the tombstone only suppresses the built-in entry,
while a user record whose id collides with the built-in id is still shown
(see the counterexample). -/
theorem listPresets_tombstone_suppression (ups : List Preset) (X : String)
    (_hB : X ∈ DEFAULT_PRESETS.map (fun p => p.id))
    (hT : ∃ q ∈ ups, q.id = "deleted_" ++ X)
    (hNo : ∀ q ∈ ups, q.id ≠ X) :
    (listPresets ups).all (fun e => !(e.id == X)) = true := by
  have hM : (deletionMarkers ups).contains X = true := contains_deletionMarkers.mpr hT
  rw [List.all_eq_true]
  intro e he
  simp only [Bool.not_eq_true', beq_eq_false_iff_ne, ne_eq]
  intro hex
  rw [listPresets, getAllPresets, List.mem_append] at he
  rcases he with he | he
  · obtain ⟨d, hd, hed⟩ := List.mem_map.mp he
    rw [activeDefaultPresets, List.mem_filter] at hd
    obtain ⟨_, hdm⟩ := hd
    have hdid : d.id = X := by rw [← applyShadow_id (shadowCopies ups) d, hed, hex]
    rw [hdid, hM] at hdm
    simp at hdm
  · rw [regularUserPresets, List.mem_filter] at he
    exact hNo e he.1 (by rw [hex])

/-- Witness for the amended C2 theorem: tombstoning "formal" removes it
from the resolved list when no same-id record exists. -/
theorem listPresets_tombstone_suppression_witness :
    ("formal" ∈ DEFAULT_PRESETS.map (fun p => p.id)) ∧
    (({ id := "deleted_formal", name := "DELETED", prompt := "DELETED" } : Preset).id =
      "deleted_" ++ "formal") ∧
    (listPresets [{ id := "deleted_formal", name := "DELETED", prompt := "DELETED" }]).all
      (fun e => !(e.id == "formal")) = true := by
  refine ⟨by decide, by decide, ?_⟩
  exact listPresets_tombstone_suppression
    [{ id := "deleted_formal", name := "DELETED", prompt := "DELETED" }] "formal"
    (by decide)
    ⟨{ id := "deleted_formal", name := "DELETED", prompt := "DELETED" },
      List.mem_singleton.mpr rfl, by decide⟩
    (by decide)

/-! ### C10: no sentinel ids in the resolved list -/

/-- C10: every entry of the resolved list has an id that starts with
neither "shadow_" nor "deleted_", and is either one of the built-in ids
or a regular (unprefixed) user-preset record of the collection. -/
theorem listPresets_no_sentinel_ids (ups : List Preset) (e : Preset)
    (he : e ∈ listPresets ups) :
    jsStartsWith e.id "shadow_" = false ∧ jsStartsWith e.id "deleted_" = false ∧
    (e.id ∈ DEFAULT_PRESETS.map (fun p => p.id) ∨ e ∈ regularUserPresets ups) := by
  rw [listPresets, getAllPresets, List.mem_append] at he
  rcases he with he | he
  · obtain ⟨d, hd, hed⟩ := List.mem_map.mp he
    rw [activeDefaultPresets, List.mem_filter] at hd
    have hid : e.id = d.id := by rw [← hed, applyShadow_id]
    have hdD := hd.1
    simp only [DEFAULT_PRESETS, List.mem_cons, List.not_mem_nil, or_false] at hdD
    rcases hdD with h | h | h | h <;> rw [hid, h] <;>
      exact ⟨by decide, by decide, Or.inl (by decide)⟩
  · have hf := he
    rw [regularUserPresets, List.mem_filter] at hf
    have hb : jsStartsWith e.id "deleted_" = false ∧ jsStartsWith e.id "shadow_" = false := by
      have := hf.2
      simp only [Bool.and_eq_true, Bool.not_eq_true'] at this
      exact this
    exact ⟨hb.2, hb.1, Or.inr he⟩

/-- Witness for C10 at the empty collection and the first built-in. -/
theorem listPresets_no_sentinel_ids_witness :
    ((DEFAULT_PRESETS.getD 0 dummyPreset) ∈ listPresets []) ∧
    (jsStartsWith (DEFAULT_PRESETS.getD 0 dummyPreset).id "shadow_" = false ∧
     jsStartsWith (DEFAULT_PRESETS.getD 0 dummyPreset).id "deleted_" = false ∧
     ((DEFAULT_PRESETS.getD 0 dummyPreset).id ∈ DEFAULT_PRESETS.map (fun p => p.id) ∨
       (DEFAULT_PRESETS.getD 0 dummyPreset) ∈ regularUserPresets [])) :=
  ⟨by decide, listPresets_no_sentinel_ids [] _ (by decide)⟩

/-! ### Component lemmas for appended records -/

theorem deletionMarkers_append (l₁ l₂ : List Preset) :
    deletionMarkers (l₁ ++ l₂) = deletionMarkers l₁ ++ deletionMarkers l₂ := by
  simp [deletionMarkers, List.filter_append]

theorem shadowCopies_append (l₁ l₂ : List Preset) :
    shadowCopies (l₁ ++ l₂) = shadowCopies l₁ ++ shadowCopies l₂ := by
  simp [shadowCopies, List.filter_append]

theorem regularUserPresets_append (l₁ l₂ : List Preset) :
    regularUserPresets (l₁ ++ l₂) = regularUserPresets l₁ ++ regularUserPresets l₂ := by
  simp [regularUserPresets, List.filter_append]

theorem contains_append_single (l : List String) (x y : String) :
    (l ++ [x]).contains y = (l.contains y || (y == x)) := by
  rw [List.contains_eq_any_beq, List.any_append, ← List.contains_eq_any_beq]
  simp [List.any]

/-- The tombstone record for X. -/
def tombRecord (X : String) : Preset :=
  { id := "deleted_" ++ X, name := "DELETED", prompt := "DELETED" }

/-- Appending a tombstone whose marker is already recorded does not
change the resolved list. -/
theorem filter_deleted_tomb (X : String) :
    List.filter (fun p => jsStartsWith p.id "deleted_") [tombRecord X] = [tombRecord X] := by
  rw [List.filter_cons,
    show jsStartsWith (tombRecord X).id "deleted_" = true from jsStartsWith_append "deleted_" X]
  simp

theorem deletionMarkers_tomb (X : String) : deletionMarkers [tombRecord X] = [X] := by
  unfold deletionMarkers
  rw [filter_deleted_tomb, List.map_cons, List.map_nil,
    show dropChars (tombRecord X).id ("deleted_".data.length) = X from
      dropChars_append "deleted_" X]

theorem getAllPresets_append_tomb_of_contains {u : List Preset} {X : String}
    (h : (deletionMarkers u).contains X = true) :
    getAllPresets (u ++ [tombRecord X]) = getAllPresets u := by
  have hdm : deletionMarkers (u ++ [tombRecord X]) = deletionMarkers u ++ [X] := by
    rw [deletionMarkers_append, deletionMarkers_tomb]
  have hsc : shadowCopies (u ++ [tombRecord X]) = shadowCopies u := by
    rw [shadowCopies_append]
    simp [shadowCopies, tombRecord, deleted_not_shadow]
  have hru : regularUserPresets (u ++ [tombRecord X]) = regularUserPresets u := by
    rw [regularUserPresets_append]
    simp [regularUserPresets, tombRecord, jsStartsWith_append]
  have had : activeDefaultPresets (u ++ [tombRecord X]) = activeDefaultPresets u := by
    rw [activeDefaultPresets, activeDefaultPresets, hdm]
    apply List.filter_congr
    intro a _
    rw [contains_append_single]
    rcases hax : a.id == X with _ | _
    · simp
    · have hax' : a.id = X := by simpa using hax
      rw [hax', h]
      simp
  rw [getAllPresets, getAllPresets, hsc, hru, had]

/-! ### C4: idempotent deletion of a built-in -/

/-- C4: deleting a built-in preset twice yields the same resolved list as
deleting it once: the second call appends a second tombstone for X, which
neither changes the set of deletion markers in effect nor adds any shadow
or regular record. -/
theorem deletePreset_idempotent (s : Store) (X : String)
    (hB : DEFAULT_PRESETS.any (fun p => p.id == X) = true) :
    listPresets (deletePreset X (deletePreset X s)).userPresets =
      listPresets (deletePreset X s).userPresets := by
  have hu1 : (deletePreset X s).userPresets = s.userPresets ++ [tombRecord X] := by
    simp [deletePreset, hB, tombRecord]
  have hu2 : (deletePreset X (deletePreset X s)).userPresets =
      (deletePreset X s).userPresets ++ [tombRecord X] := by
    simp [deletePreset, hB, tombRecord]
  have hmem : (deletionMarkers ((deletePreset X s).userPresets)).contains X = true := by
    rw [hu1, deletionMarkers_append, deletionMarkers_tomb, contains_append_single]
    simp
  rw [listPresets, listPresets, hu2, getAllPresets_append_tomb_of_contains hmem]

/-- Witness for C4: double-deleting "formal" from the empty store. -/
theorem deletePreset_idempotent_witness :
    (DEFAULT_PRESETS.any (fun p => p.id == "formal") = true) ∧
    listPresets (deletePreset "formal" (deletePreset "formal"
        { userPresets := [], currentPresetId := none })).userPresets =
      listPresets (deletePreset "formal"
        { userPresets := [], currentPresetId := none }).userPresets :=
  ⟨by decide, deletePreset_idempotent { userPresets := [], currentPresetId := none }
    "formal" (by decide)⟩

/-! ### C5: selection-pointer repair -/

theorem ifLength_eq_head_map (l : List Preset) :
    (if l.length > 0 then some (l.getD 0 dummyPreset).id else none) =
      l.head?.map (fun p => p.id) := by
  cases l <;> simp [List.getD]

/-- C5: when deletePreset is called on the id the persisted pointer
holds, and that id is a built-in or an existing user record (so the call
actually mutates the collection), the pointer afterwards names the first
entry of the freshly resolved list, or is cleared when that list is
empty. -/
theorem deletePreset_pointer_repair (s : Store) (X : String)
    (hcur : s.currentPresetId = some X)
    (hdel : DEFAULT_PRESETS.any (fun p => p.id == X) = true ∨
      (s.userPresets.find? (fun p => p.id == X)).isSome = true) :
    (deletePreset X s).currentPresetId =
      ((listPresets (deletePreset X s).userPresets).head?).map (fun p => p.id) := by
  by_cases hb : (DEFAULT_PRESETS.any (fun p => p.id == X)) = true
  · simp only [deletePreset, hb, if_true, hcur, beq_self_eq_true, listPresets]
    exact ifLength_eq_head_map _
  · have hfind : (s.userPresets.find? (fun p => p.id == X)).isSome = true := by
      rcases hdel with h | h
      · exact absurd h hb
      · exact h
    obtain ⟨v, hv⟩ := Option.isSome_iff_exists.mp hfind
    have hb' : (DEFAULT_PRESETS.any (fun p => p.id == X)) = false :=
      Bool.eq_false_iff.mpr (fun h => hb h)
    simp only [deletePreset, hb', Bool.false_eq_true, if_false, hv, hcur, beq_self_eq_true,
      if_true, listPresets]
    exact ifLength_eq_head_map _

/-- Witness for C5: deleting the selected built-in "formal" from the
empty store repoints the selection at the first resolved entry. -/
theorem deletePreset_pointer_repair_witness :
    ({ userPresets := [], currentPresetId := some "formal" } : Store).currentPresetId =
      some "formal" ∧
    (deletePreset "formal" { userPresets := [], currentPresetId := some "formal" }).currentPresetId =
      ((listPresets (deletePreset "formal"
          { userPresets := [], currentPresetId := some "formal" }).userPresets).head?).map
        (fun p => p.id) :=
  ⟨rfl, deletePreset_pointer_repair { userPresets := [], currentPresetId := some "formal" }
    "formal" rfl (Or.inl (by decide))⟩

/-! ### C6: toggle advances cyclically (amended) -/

/-- C6 amended: with a nonempty resolved list and a non-empty-string
pointer, toggleToNextPreset advances the selection to the entry at
(current index + 1) modulo the list length (wrapping from last to first),
persists that entry's id and returns it; when the pointer names an id
absent from the resolved list the newly selected entry is the FIRST entry
of the list (findIndex yields -1 and (-1 + 1) % N = 0), not the second as
treating the current index as the first entry would give. -/
theorem togglePreset_advances (s : Store) (X : String)
    (hX : s.currentPresetId = some X) (hne : X ≠ "") :
    (∀ i, (listPresets s.userPresets).findIdx? (fun q => q.id == X) = some i →
      ∃ p, togglePreset s =
          some ({ userPresets := s.userPresets, currentPresetId := some p.id }, p) ∧
        p = (listPresets s.userPresets).getD
            ((i + 1) % (listPresets s.userPresets).length) dummyPreset) ∧
    ((listPresets s.userPresets).findIdx? (fun q => q.id == X) = none →
      listPresets s.userPresets ≠ [] →
      ∃ p, togglePreset s =
          some ({ userPresets := s.userPresets, currentPresetId := some p.id }, p) ∧
        p = (listPresets s.userPresets).getD 0 dummyPreset) := by
  have hbe : (X == "") = false := by
    rcases h : X == "" with _ | _
    · rfl
    · exact absurd (by simpa using h) hne
  constructor
  · intro i hi
    rw [listPresets] at hi
    rcases hl : getAllPresets s.userPresets with _ | ⟨a, t⟩
    · rw [hl] at hi
      simp at hi
    · rw [hl] at hi
      refine ⟨(a :: t).getD ((i + 1) % (a :: t).length) dummyPreset, ?_, ?_⟩
      · simp [togglePreset, hl, hX, hbe, hi]
      · rw [listPresets, hl]
  · intro hfi hnil
    rw [listPresets] at hfi
    rcases hl : getAllPresets s.userPresets with _ | ⟨a, t⟩
    · rw [listPresets, hl] at hnil
      exact absurd rfl hnil
    · rw [hl] at hfi
      refine ⟨(a :: t).getD 0 dummyPreset, ?_, ?_⟩
      · simp [togglePreset, hl, hX, hbe, hfi]
      · rw [listPresets, hl]

/-- Witness for the amended C6 theorem: toggling from "formal" (index 1
of the resolved default list) selects index (1 + 1) % 4 = 2. -/
theorem togglePreset_advances_witness :
    ({ userPresets := [], currentPresetId := some "formal" } : Store).currentPresetId =
      some "formal" ∧
    ("formal" : String) ≠ "" ∧
    (listPresets []).findIdx? (fun q => q.id == "formal") = some 1 ∧
    (∃ p, togglePreset { userPresets := [], currentPresetId := some "formal" } =
        some ({ userPresets := [], currentPresetId := some p.id }, p) ∧
      p = (listPresets []).getD ((1 + 1) % (listPresets []).length) dummyPreset) :=
  ⟨rfl, by decide, by decide,
    (togglePreset_advances { userPresets := [], currentPresetId := some "formal" } "formal" rfl
      (by decide)).1 1 (by decide)⟩

/-! ### List lemmas for in-place shadow updates -/

theorem find?_set_of_findIdx? {α : Type} {p : α → Bool} {a : α} :
    ∀ {l : List α} {i : Nat}, l.findIdx? p = some i → p a = true →
      (l.set i a).find? p = some a := by
  intro l
  induction l with
  | nil =>
    intro i h _
    simp at h
  | cons x xs ih =>
    intro i h ha
    rw [List.findIdx?_cons] at h
    by_cases hpx : p x = true
    · rw [if_pos hpx] at h
      obtain rfl : i = 0 := by simpa using h.symm
      simp [ha]
    · rw [if_neg hpx, List.findIdx?_succ] at h
      obtain ⟨i', hi', rfl⟩ := Option.map_eq_some'.mp h
      rw [List.set_cons_succ, List.find?_cons_of_neg _ hpx]
      exact ih hi' ha

theorem filter_set_of_false {α : Type} {q : α → Bool} {a : α} :
    ∀ {l : List α} {i : Nat}, (h : i < l.length) → q (l.get ⟨i, h⟩) = false → q a = false →
      (l.set i a).filter q = l.filter q := by
  intro l
  induction l with
  | nil =>
    intro i h
    simp at h
  | cons x xs ih =>
    intro i h hold hnew
    cases i with
    | zero =>
      rw [List.set_cons_zero]
      simp only [List.get] at hold
      rw [List.filter_cons, List.filter_cons, hold, hnew]
      simp
    | succ j =>
      rw [List.set_cons_succ, List.filter_cons, List.filter_cons]
      have hj : j < xs.length := Nat.lt_of_succ_lt_succ h
      have := ih hj (by simpa using hold) hnew
      cases q x <;> simp [this]

/-! ### C3: editPreset behavior (amended) -/

/-- C3 amended: editPreset(id, name, prompt) behaves as follows.  (1) If
id is a built-in id AND no tombstone for it is persisted, the shadow
record shadow_id is created or updated in place (copy-on-write: the
first shadow_id record afterwards holds the new name and prompt, and the
non-shadow records are untouched; the built-in constants are a fixed
list the operation never writes).  (2) If id is not built-in and a
regular user record with that id exists, the collection is rewritten
with that record updated in place.  (3) If id is not built-in and no
regular user record carries it, the operation signals Not-Found.  (4) If
id is a built-in id but a tombstone for it is persisted (and no record
carries id itself), the operation signals Not-Found rather than creating
a shadow - the correction the counterexample forces on the original
claim. -/
theorem editPreset_spec (ups : List Preset) (X n pr : String) :
    (DEFAULT_PRESETS.any (fun p => p.id == X) = true →
      (∀ q ∈ ups, q.id ≠ "deleted_" ++ X) →
      ∃ l, editPreset X n pr ups = some l ∧
        l.find? (fun q => q.id == "shadow_" ++ X) =
          some { id := "shadow_" ++ X, name := n, prompt := pr } ∧
        l.filter (fun q => !(jsStartsWith q.id "shadow_")) =
          ups.filter (fun q => !(jsStartsWith q.id "shadow_"))) ∧
    (DEFAULT_PRESETS.any (fun p => p.id == X) = false →
      (∃ q ∈ regularUserPresets ups, q.id = X) →
      editPreset X n pr ups =
        some (ups.map (fun p =>
          if p.id == X then { id := p.id, name := n, prompt := pr } else p))) ∧
    (DEFAULT_PRESETS.any (fun p => p.id == X) = false →
      (∀ q ∈ regularUserPresets ups, q.id ≠ X) →
      editPreset X n pr ups = none) ∧
    (DEFAULT_PRESETS.any (fun p => p.id == X) = true →
      (∃ q ∈ ups, q.id = "deleted_" ++ X) →
      (∀ q ∈ ups, q.id ≠ X) →
      editPreset X n pr ups = none) := by
  refine ⟨?_, ?_, ?_, ?_⟩
  · -- clause 1: built-in, not tombstoned: shadow create-or-update
    intro hB hT
    have hM : (deletionMarkers ups).contains X = false := by
      rcases h : (deletionMarkers ups).contains X with _ | _
      · rfl
      · obtain ⟨q, hq, hid⟩ := contains_deletionMarkers.mp h
        exact absurd hid (hT q hq)
    have hBmem : X ∈ DEFAULT_PRESETS.map (fun p => p.id) := by
      obtain ⟨d, hd, hdX⟩ := List.any_eq_true.mp hB
      exact List.mem_map.mpr ⟨d, hd, by simpa using hdX⟩
    obtain ⟨d, hd, hdid⟩ := find?_DEFAULT_PRESETS hBmem
    have hres : (getAllPresets ups).find? (fun p => p.id == X) =
        some (applyShadow (shadowCopies ups) d) := by
      rw [find?_getAllPresets, find?_activeDefaults_of_not_tomb hM, hd]
      rfl
    rcases hIdx : ups.findIdx? (fun p => p.id == "shadow_" ++ X) with _ | j
    · -- no shadow yet: append a fresh one
      refine ⟨ups ++ [{ id := "shadow_" ++ X, name := n, prompt := pr }], ?_, ?_, ?_⟩
      · simp [editPreset, hres, hB, hIdx]
      · rw [List.find?_append,
          List.find?_eq_none.mpr (fun x hx => by
            have := List.findIdx?_eq_none_iff.mp hIdx x hx
            simp [this])]
        simp
      · rw [List.filter_append]
        have : List.filter (fun q => !(jsStartsWith q.id "shadow_"))
            [({ id := "shadow_" ++ X, name := n, prompt := pr } : Preset)] = [] := by
          rw [List.filter_cons]
          rw [show jsStartsWith ({ id := "shadow_" ++ X, name := n, prompt := pr } : Preset).id
              "shadow_" = true from jsStartsWith_append "shadow_" X]
          simp
        rw [this, List.append_nil]
    · -- a shadow exists at index j: it is overwritten in place
      obtain ⟨hlt, hpj, _⟩ := List.findIdx?_eq_some_iff_getElem.mp hIdx
      refine ⟨ups.set j { id := "shadow_" ++ X, name := n, prompt := pr }, ?_, ?_, ?_⟩
      · simp [editPreset, hres, hB, hIdx]
      · exact find?_set_of_findIdx? hIdx (by simp)
      · refine filter_set_of_false hlt ?_ ?_
        · have hidj : (ups.get ⟨j, hlt⟩).id = "shadow_" ++ X := by
            simpa using hpj
          rw [hidj]
          simp [jsStartsWith_append]
        · rw [show jsStartsWith ({ id := "shadow_" ++ X, name := n, prompt := pr } : Preset).id
              "shadow_" = true from jsStartsWith_append "shadow_" X]
          rfl
  · -- clause 2: existing user preset: updated in place
    intro hB hq
    obtain ⟨q, hq, hqid⟩ := hq
    have hres : ((getAllPresets ups).find? (fun p => p.id == X)).isSome = true := by
      rw [List.find?_isSome]
      exact ⟨q, by rw [getAllPresets, List.mem_append]; exact Or.inr hq, by simp [hqid]⟩
    obtain ⟨v, hv⟩ := Option.isSome_iff_exists.mp hres
    simp [editPreset, hv, hB]
  · -- clause 3: not built-in, no user record: Not-Found
    intro hB hno
    have hres : (getAllPresets ups).find? (fun p => p.id == X) = none := by
      rw [find?_getAllPresets]
      have hB' : ∀ x ∈ DEFAULT_PRESETS, ¬ x.id = X := by simpa using hB
      have h1 : (activeDefaultPresets ups).find? (fun p => p.id == X) = none := by
        rw [List.find?_eq_none]
        intro x hx
        rw [activeDefaultPresets, List.mem_filter] at hx
        simpa using hB' x hx.1
      have h2 : (regularUserPresets ups).find? (fun p => p.id == X) = none := by
        rw [List.find?_eq_none]
        intro x hx
        simpa using hno x hx
      rw [h1, h2]
      rfl
    simp [editPreset, hres]
  · -- clause 4: tombstoned built-in: Not-Found
    intro _ hT hno
    have hM : (deletionMarkers ups).contains X = true := contains_deletionMarkers.mpr hT
    have hres : (getAllPresets ups).find? (fun p => p.id == X) = none := by
      rw [find?_getAllPresets, find?_activeDefaults_none hM]
      have h2 : (regularUserPresets ups).find? (fun p => p.id == X) = none := by
        rw [List.find?_eq_none]
        intro x hx
        rw [regularUserPresets, List.mem_filter] at hx
        simpa using hno x hx.1
      rw [h2]
      rfl
    simp [editPreset, hres]

/-- Witness for the amended C3 theorem: editing the built-in "formal" in
an empty collection creates the shadow record. -/
theorem editPreset_spec_witness :
    (DEFAULT_PRESETS.any (fun p => p.id == "formal") = true) ∧
    (∃ l, editPreset "formal" "Formal v2" "New prompt" [] = some l ∧
      l.find? (fun q => q.id == "shadow_" ++ "formal") =
        some { id := "shadow_" ++ "formal", name := "Formal v2", prompt := "New prompt" } ∧
      l.filter (fun q => !(jsStartsWith q.id "shadow_")) =
        List.filter (fun q => !(jsStartsWith q.id "shadow_")) []) :=
  ⟨by decide, (editPreset_spec [] "formal" "Formal v2" "New prompt").1 (by decide)
    (by intro q hq; simp at hq)⟩
